import Mathlib

/-! Verification development for the ShopSmartBot navigation and rendering engine
    of src/main.py. Python runtime values are modelled by the JValue type, Python
    exceptions by PyExc, and the message transport by explicit effect traces. The
    catalog file on disk is a CatalogSource; delivery success of product sends is
    an oracle parameter, while plain menu replies are modelled as succeeding.
    JSON numbers are modelled as integers. -/

inductive JValue where
| null
| bool (b : Bool)
| num (n : Int)
| str (s : String)
| arr (elems : List JValue)
| obj (fields : List (String × JValue))

inductive PyExc where
| fileNotFoundError
| valueError
| typeError
| attributeError
| keyError
| deliveryError
deriving DecidableEq

/-- State of data/products.json: absent, present but not valid JSON, or parsed JSON. -/
inductive CatalogSource where
| missing
| badJson
| json (v : JValue)

/-- Python len(); raises TypeError on values without a length. -/
def pyLen : JValue → Except PyExc Nat
| .str s => .ok s.length
| .arr l => .ok l.length
| .obj f => .ok f.length
| _ => .error .typeError

/-- Python iteration (for p in v): lists yield elements, dicts yield their keys,
    strings yield one-character strings; other values raise TypeError. -/
def pyIter : JValue → Except PyExc (List JValue)
| .arr l => .ok l
| .obj f => .ok (f.map (fun kv => .str kv.1))
| .str s => .ok (s.toList.map (fun c => .str (String.mk [c])))
| _ => .error .typeError

/-- Key lookup in the field list of a JSON object. -/
def pyLookup (fields : List (String × JValue)) (k : String) : Option JValue :=
  (fields.find? (fun kv => kv.1 == k)).map (fun kv => kv.2)

/-- Python dict .get(k, default); AttributeError when the receiver is not a dict. -/
def pyDictGet (p : JValue) (k : String) (dflt : JValue) : Except PyExc JValue :=
  match p with
  | .obj fields => .ok ((pyLookup fields k).getD dflt)
  | _ => .error .attributeError

/-- Python subscript p[k]: KeyError when the key is absent, TypeError when the
    receiver is not a dict. -/
def pyGetItem (p : JValue) (k : String) : Except PyExc JValue :=
  match p with
  | .obj fields =>
    match pyLookup fields k with
    | some v => .ok v
    | none => .error .keyError
  | _ => .error .typeError

/-- Python equality of a value against a str (only a str can compare equal). -/
def pyEqStr (v : JValue) (s : String) : Bool :=
  match v with
  | .str t => t == s
  | _ => false

/-- Python comparison v > 0: bools count as ints, non-numeric types raise TypeError. -/
def pyGtZero : JValue → Except PyExc Bool
| .num n => .ok (decide (0 < n))
| .bool b => .ok b
| _ => .error .typeError

/-- Numeric view of a value for Python arithmetic (bools count as 0 or 1). -/
def pyToIntArith : JValue → Option Int
| .num n => some n
| .bool b => some (if b then 1 else 0)
| _ => none

/-- Python subtraction a - b; TypeError unless both operands are numeric. -/
def pySub (a b : JValue) : Except PyExc JValue :=
  match pyToIntArith a, pyToIntArith b with
  | some x, some y => .ok (.num (x - y))
  | _, _ => .error .typeError

/-- Plain quote character, used by the Python repr of strings. -/
def quoteChar : Char := Char.ofNat 39

/-- Python repr() of a value, as used by str() on containers. -/
def pyRepr : JValue → String
| .null => "None"
| .bool true => "True"
| .bool false => "False"
| .num n => toString n
| .str s => String.mk (quoteChar :: s.toList ++ [quoteChar])
| .arr l => "[" ++ String.intercalate ", " (l.attach.map (fun x => pyRepr x.1)) ++ "]"
| .obj f => "\x7b" ++ String.intercalate ", "
    (f.attach.map (fun kv => String.mk (quoteChar :: kv.1.1.toList ++ [quoteChar]) ++ ": " ++ pyRepr kv.1.2)) ++ "\x7d"
decreasing_by
· simp_wf
  have h := List.sizeOf_lt_of_mem x.2
  omega
· simp_wf
  have h := List.sizeOf_lt_of_mem kv.2
  have h2 : sizeOf kv.1.2 < sizeOf kv.1 := by
    obtain ⟨k, v⟩ := kv.1
    simp
  omega

/-- Python str() / f-string interpolation of a value: strings are taken as they
    are, scalars render as in repr, containers fall back to repr. -/
def pyStr : JValue → String
| .str s => s
| .null => "None"
| .bool true => "True"
| .bool false => "False"
| .num n => toString n
| v => pyRepr v

/-- PLATFORM_MAP of the source, in order. -/
def PLATFORM_MAP : List (String × String) :=
  [("express", "⚡ علي إكس براس"), ("trendyol", "🛍️ تريندويل"), ("amazon", "🚀 أمازون")]

/-- CATEGORY_MAP of the source: English JSON keys to button labels, in order. -/
def CATEGORY_MAP : List (String × String) :=
  [("groceries", "🛒 مواد غذائية"), ("beauty", "💄 الجمال"),
   ("mobiles", "📱 الجوالات"), ("home_appliances", "🏠 الأجهزة المنزلية")]

def backToPlatformsLabel : String := "↩️ رجوع إلى المنصات"

def showMoreLabel : String := "🛒 عرض المزيد"

def amazonLabel : String := "🚀 أمازون"

def categoryLabels : List String := CATEGORY_MAP.map (fun kv => kv.2)

/-- load_products: FileNotFoundError when the file is missing, ValueError when it is
    not valid JSON; a successful json.load is returned with no structural validation.
    The log line interpolates len(products), which raises TypeError on an unsized value. -/
def load_products : CatalogSource → Except PyExc JValue
| .missing => .error .fileNotFoundError
| .badJson => .error .valueError
| .json v => do
    let _ ← pyLen v
    .ok v

/-- get_greeting: dynamic greeting based on the hour of day. -/
def get_greeting (hour : Nat) : String :=
  if 5 ≤ hour ∧ hour < 12 then "صباح الخير! 🌅"
  else if 12 ≤ hour ∧ hour < 18 then "مساء الخير! ☀️"
  else "مساء الخير! 🌙"

/-- One pass of text.replace(char, escape marker followed by char) for a single
    character pattern, as performed character-wise by Python str.replace. -/
def escChar (l : List Char) (c : Char) : List Char :=
  l.flatMap (fun x => if x = c then ['\\', c] else [x])

/-- The reserved characters of escape_markdown_v2, in source order. -/
def reservedChars : List Char := "_*[]()~`>#+-=|\x7b\x7d.!/".toList

/-- escape_markdown_v2: successively replaces every reserved character by an escape
    marker followed by that character. -/
def escape_markdown_v2 (text : List Char) : List Char :=
  reservedChars.foldl escChar text

/-- Python str.replace for a multi-character pattern: scans left to right replacing
    non-overlapping occurrences. The fuel argument, initially the length of the text,
    only bounds the recursion and is never exhausted. -/
def pyReplaceF (pat rep : List Char) : Nat → List Char → List Char
| _, [] => []
| 0, l => l
| fuel + 1, x :: rest =>
  if pat.isPrefixOf (x :: rest) ∧ pat ≠ [] then
    rep ++ pyReplaceF pat rep fuel ((x :: rest).drop pat.length)
  else
    x :: pyReplaceF pat rep fuel rest

/-- Python text.replace(pat, rep). -/
def pyReplace (l pat rep : List Char) : List Char :=
  pyReplaceF pat rep l.length l

/-- The caption template of _build_caption: already-escaped fields spliced into the
    literal markup; hasDiscount is the old_price > 0 test of the source. -/
def captionTemplate (idx : Nat) (escTitle : List Char) (hasDiscount : Bool)
    (escOld escNew escSav : List Char) : List Char :=
  ("*🏷️ المنتج ".toList ++ (Nat.repr idx).toList ++ ": ".toList ++ escTitle ++ "*\n\n".toList) ++
  (if hasDiscount then
     "💵 *السعر:*\n~~".toList ++ escOld ++ "~~ ➡️ *".toList ++ escNew ++ "*\n".toList ++
     "💰 *وفرت: ".toList ++ escSav ++ "* 🎉".toList
   else
     "💵 *السعر: ".toList ++ escNew ++ "*".toList)

/-- A well-formed catalog record, as described by the catalog source format: the
    shape a structurally valid entry of products.json carries. -/
structure Product where
  id : Int
  title : String
  category : String
  new_price : Int
  old_price : Int
  detail_url : String
  image : String
deriving DecidableEq

/-- The build_caption function of the source on a well-formed record: savings are
    old_price - new_price when old_price > 0, each field is escaped independently,
    then the caption is composed. -/
def _build_caption (p : Product) (idx : Nat) : List Char :=
  let savings : Int := if 0 < p.old_price then p.old_price - p.new_price else 0
  captionTemplate idx
    (escape_markdown_v2 p.title.toList)
    (decide (0 < p.old_price))
    (escape_markdown_v2 ((toString p.old_price ++ " ريال").toList))
    (escape_markdown_v2 ((toString p.new_price ++ " ريال").toList))
    (escape_markdown_v2 ((toString savings ++ " ريال").toList))

/-- escape_markdown_v2 applied to an arbitrary Python value: text.replace requires a
    str receiver, so any other type raises AttributeError. -/
def pyEscape (v : JValue) : Except PyExc (List Char) :=
  match v with
  | .str s => .ok (escape_markdown_v2 s.toList)
  | _ => .error .attributeError

/-- The build_caption function of the source on a raw loaded record, following the
    source line by line (field reads, the old_price > 0 gate, savings, escapes). -/
def _build_caption_py (p : JValue) (idx : Nat) : Except PyExc (List Char) := do
  let title ← pyGetItem p "title"
  let old ← pyDictGet p "old_price" (.num 0)
  let newPrice ← pyGetItem p "new_price"
  let hasDiscount ← pyGtZero old
  let savings ← if hasDiscount then pySub old newPrice else .ok (.num 0)
  let escTitle ← pyEscape title
  let escOld := escape_markdown_v2 ((pyStr old ++ " ريال").toList)
  let escNew := escape_markdown_v2 ((pyStr newPrice ++ " ريال").toList)
  let escSav := escape_markdown_v2 ((pyStr savings ++ " ريال").toList)
  .ok (captionTemplate idx escTitle hasDiscount escOld escNew escSav)

/-- The comprehension of get_products_by_category, reading p.get of each element. -/
def pyFilterByCategory (category : String) : List JValue → Except PyExc (List JValue)
| [] => .ok []
| p :: rest => do
  let c ← pyDictGet p "category" .null
  let tail ← pyFilterByCategory category rest
  .ok (if pyEqStr c category then p :: tail else tail)

/-- get_products_by_category: filter the catalog by category and cap the result at
    the first 3 matches, in source order. -/
def get_products_by_category (products : JValue) (category : String) :
    Except PyExc (List JValue) := do
  let ps ← pyIter products
  let filtered ← pyFilterByCategory category ps
  .ok (filtered.take 3)

/-- Keyboard attached to an outbound message: none, an explicit removal, or rows of
    button labels. -/
inductive KbSpec where
| noKb
| removeKb
| rows (buttons : List (List String))

/-- One observable transport effect: a menu or info reply (modelled as delivered), or
    an attempted product-card send on the rich or the plain path with its outcome. -/
inductive Eff where
| menuMsg (text : String) (kb : KbSpec) (markdown : Bool)
| richSend (usedPhoto : Bool) (caption : List Char) (url : JValue) (ok : Bool)
| plainSend (caption : List Char) (url : JValue) (ok : Bool)

inductive RunStatus where
| completed
| crashed (e : PyExc)

/-- The observable outcome of handling one inbound event: the effect trace and
    whether the handler ran to completion or an exception escaped it. -/
structure Run where
  effects : List Eff
  status : RunStatus

/-- The plain-text fallback caption of send_product_message: replace escaped
    asterisks by asterisks, strike-through marker pairs by nothing, and the arrow
    glyph by an ASCII arrow. -/
def plain_caption (caption : List Char) : List Char :=
  pyReplace (pyReplace (pyReplace caption "\\*".toList "*".toList) "~~".toList "".toList)
    "➡️".toList "->".toList

def placeholderPath : String := "assets/placeholder.jpg"

/-- Path(v): the path constructor needs a string (TypeError otherwise). -/
def pyPathStr (v : JValue) : Except PyExc String :=
  match v with
  | .str s => .ok s
  | _ => .error .typeError

/-- send_product_message: resolve the photo (product image if it exists on disk, else
    the placeholder if that exists), build the caption and keyboard, then try the rich
    MarkdownV2 send; on failure, log (which reads product subscript id) and make one
    plain-text fallback attempt whose failure escapes. fs tells which paths exist. -/
def send_product_message (fs : String → Bool) (richOk plainOk : Bool) (p : JValue)
    (idx : Nat) : List Eff × Option PyExc :=
  match pyDictGet p "image" (.str "") with
  | .error e => ([], some e)
  | .ok imgVal =>
    match pyPathStr imgVal with
    | .error e => ([], some e)
    | .ok imgPath =>
      let photo : Option String :=
        if fs imgPath then some imgPath
        else if fs placeholderPath then some placeholderPath else none
      match _build_caption_py p idx with
      | .error e => ([], some e)
      | .ok caption =>
        match pyGetItem p "detail_url" with
        | .error e => ([], some e)
        | .ok url =>
          if richOk then
            ([.richSend photo.isSome caption url true], none)
          else
            match pyGetItem p "id" with
            | .error e => ([.richSend photo.isSome caption url false], some e)
            | .ok _ =>
              if plainOk then
                ([.richSend photo.isSome caption url false,
                  .plainSend (plain_caption caption) url true], none)
              else
                ([.richSend photo.isSome caption url false,
                  .plainSend (plain_caption caption) url false], some .deliveryError)

/-- The send loop of category_handler (enumerate starting at 1): strictly sequential
    sends; an escaping exception aborts the remaining products. -/
def sendLoop (fs : String → Bool) (richOk plainOk : Nat → Bool) :
    List JValue → Nat → List Eff × Option PyExc
| [], _ => ([], none)
| p :: rest, idx =>
  match send_product_message fs (richOk idx) (plainOk idx) p idx with
  | (effs, some e) => (effs, some e)
  | (effs, none) =>
    match sendLoop fs richOk plainOk rest (idx + 1) with
    | (effs2, exc) => (effs ++ effs2, exc)

def genericErrorText : String := "⚠️ **عذراً، حدث خطأ مؤقت**\nالرجاء المحاولة لاحقًا."

def unknownCategoryText : String := "❌ قسم غير معروف. استخدم /start للبدء."

def emptyCategoryText : String :=
  "📦 **لا توجد منتجات في هذا القسم حالياً**\n\n✨ جاري تحديث العروض قريباً!"

def loadingText (label : String) : String :=
  "🔄 **جاري تحميل المنتجات في " ++ label ++ "...**"

def endOfListText : String :=
  "🎊 **تم عرض جميع المنتجات**\n\n💫 *اختر قسم آخر أو عد إلى القائمة الرئيسية*"

/-- The reverse lookup of category_handler: first key of CATEGORY_MAP whose value is
    the inbound label, None when there is none. -/
def reverseLookupCategory (label : String) : Option String :=
  (CATEGORY_MAP.find? (fun kv => kv.2 == label)).map (fun kv => kv.1)

/-- category_handler: load the catalog, catching FileNotFoundError and ValueError with
    the generic temporary-error reply; map the label back to a category key; report an
    empty category with a back-button keyboard; otherwise remove the keyboard, send
    each capped product, and close with the end-of-list menu. -/
def category_handler (src : CatalogSource) (fs : String → Bool)
    (richOk plainOk : Nat → Bool) (label : String) : Run :=
  match load_products src with
  | .error .fileNotFoundError => ⟨[.menuMsg genericErrorText .noKb true], .completed⟩
  | .error .valueError => ⟨[.menuMsg genericErrorText .noKb true], .completed⟩
  | .error e => ⟨[], .crashed e⟩
  | .ok products =>
    match reverseLookupCategory label with
    | none => ⟨[.menuMsg unknownCategoryText .noKb false], .completed⟩
    | some key =>
      match get_products_by_category products key with
      | .error e => ⟨[], .crashed e⟩
      | .ok catProducts =>
        if catProducts.isEmpty then
          ⟨[.menuMsg emptyCategoryText (.rows [[backToPlatformsLabel]]) true], .completed⟩
        else
          match sendLoop fs richOk plainOk catProducts 1 with
          | (effs, some e) =>
            ⟨.menuMsg (loadingText label) .removeKb true :: effs, .crashed e⟩
          | (effs, none) =>
            ⟨.menuMsg (loadingText label) .removeKb true ::
              (effs ++ [.menuMsg endOfListText
                (.rows [[showMoreLabel, backToPlatformsLabel]]) true]), .completed⟩

/-- start_handler: greeting plus the platform keyboard, one button per row. -/
def start_effects (hour : Nat) : List Eff :=
  [.menuMsg (get_greeting hour ++
      "\n\n🎉 **مرحباً بك في متجرنا الإلكتروني!** 🌟\n\n✨ *اختر المنصة التي تريد استعراض عروضها:*")
    (.rows [["⚡ علي إكس براس"], ["🛍️ تريندويل"], ["🚀 أمازون"]]) true]

/-- amazon_handler: the Amazon category menu, two buttons per row plus back. -/
def amazon_effects : List Eff :=
  [.menuMsg "🚀 **مرحباً بك في أمازون!**\n\n🛍️ *اختر القسم الذي يهمك لعرض العروض الحصرية:*"
    (.rows [["🛒 مواد غذائية", "💄 الجمال"], ["📱 الجوالات", "🏠 الأجهزة المنزلية"],
      [backToPlatformsLabel]]) true]

/-- other_platforms_handler: the coming-soon reply for the unsupported platforms. -/
def coming_soon_effects (label : String) : List Eff :=
  [.menuMsg (label ++
      "\n\n🚧 **جاري التطوير**\n\n⚡ *هذه المنصة قيد التطوير حالياً*\n✨ ستكون متاحة قريباً بإذن الله\n\n💎 *يمكنك تجربة منصة أمازون الآن!*")
    (.rows [["🚀 أمازون"], [backToPlatformsLabel]]) true]

/-- The router: handlers are tried in registration order; the start command is
    modelled as the literal /start text; a label matching no filter is ignored by
    the dispatcher, so no handler runs and no reply is sent. -/
def dispatch (hour : Nat) (src : CatalogSource) (fs : String → Bool)
    (richOk plainOk : Nat → Bool) (label : String) : Option Run :=
  if label = "/start" then some ⟨start_effects hour, .completed⟩
  else if label = amazonLabel then some ⟨amazon_effects, .completed⟩
  else if label = backToPlatformsLabel then some ⟨start_effects hour, .completed⟩
  else if label ∈ categoryLabels then some (category_handler src fs richOk plainOk label)
  else if label = showMoreLabel then some ⟨amazon_effects, .completed⟩
  else if label ∈ ["⚡ علي إكس براس", "🛍️ تريندويل"] then some ⟨coming_soon_effects label, .completed⟩
  else none

/-- The JSON object carried by a well-formed catalog record. -/
def Product.toJ (p : Product) : JValue :=
  .obj [("id", .num p.id), ("title", .str p.title), ("category", .str p.category),
        ("new_price", .num p.new_price), ("old_price", .num p.old_price),
        ("detail_url", .str p.detail_url), ("image", .str p.image)]

/-- Every label with a registered handler. -/
def knownLabels : List String :=
  ["/start", amazonLabel, backToPlatformsLabel] ++ categoryLabels ++
    [showMoreLabel, "⚡ علي إكس براس", "🛍️ تريندويل"]

/-- Captions of the successfully delivered product cards of a trace. -/
def cardCaptions (effs : List Eff) : List (List Char) :=
  effs.filterMap (fun e =>
    match e with
    | .richSend _ cap _ true => some cap
    | .plainSend cap _ true => some cap
    | _ => none)

/-- Whether an effect is a product-card send attempt (either path, either outcome). -/
def isCardEffect : Eff → Bool
| .richSend _ _ _ _ => true
| .plainSend _ _ _ => true
| .menuMsg _ _ _ => false

def isRichAttempt : Eff → Bool
| .richSend _ _ _ _ => true
| _ => false

def isPlainAttempt : Eff → Bool
| .plainSend _ _ _ => true
| _ => false

/-- Expected captions for a list of records rendered from a position index on. -/
def captionsFrom : List Product → Nat → List (List Char)
| [], _ => []
| p :: rest, idx => _build_caption p idx :: captionsFrom rest (idx + 1)

/-! Characterisation of escape_markdown_v2: the successive replace passes amount to
    one character-wise pass that prefixes every reserved character with a single
    escape marker. -/

/-- The character-wise action of the whole escaping pipeline. -/
def escF (x : Char) : List Char :=
  if x ∈ reservedChars then ['\\', x] else [x]

theorem foldl_escChar_flatMap (cs : List Char) :
    ∀ l : List Char, cs.foldl escChar l = l.flatMap (fun x => cs.foldl escChar [x]) := by
  induction cs with
  | nil =>
    intro l
    simp [List.flatMap_singleton']
  | cons c cs ih =>
    intro l
    rw [List.foldl_cons, ih (escChar l c)]
    show (l.flatMap fun x => if x = c then ['\\', c] else [x]).flatMap _ = _
    rw [List.flatMap_assoc]
    congr 1
    funext x
    rw [List.foldl_cons]
    have hx : escChar [x] c = if x = c then ['\\', c] else [x] := by
      simp [escChar]
    rw [show ((fun x => if x = c then ['\\', c] else [x]) x).flatMap
          (fun y => cs.foldl escChar [y]) =
        (escChar [x] c).flatMap (fun y => cs.foldl escChar [y]) by rw [hx]]
    exact (ih (escChar [x] c)).symm

theorem foldl_escChar_singleton_not_mem :
    ∀ (cs : List Char) (x : Char), x ∉ cs → cs.foldl escChar [x] = [x] := by
  intro cs
  induction cs with
  | nil => intro x _; rfl
  | cons c cs ih =>
    intro x h
    rw [List.foldl_cons]
    have hxc : x ≠ c := fun he => h (he ▸ List.mem_cons_self x cs)
    have : escChar [x] c = [x] := by simp [escChar, hxc]
    rw [this]
    exact ih x (fun hm => h (List.mem_cons_of_mem c hm))

set_option maxHeartbeats 1000000 in
theorem foldl_escChar_singleton_mem :
    ∀ x ∈ reservedChars, reservedChars.foldl escChar [x] = ['\\', x] := by
  decide

/-- escape_markdown_v2 is the character-wise map escF. -/
theorem escape_markdown_v2_eq_flatMap (l : List Char) :
    escape_markdown_v2 l = l.flatMap escF := by
  rw [escape_markdown_v2, foldl_escChar_flatMap]
  have hfun : (fun x => reservedChars.foldl escChar [x]) = escF := by
    funext x
    by_cases hx : x ∈ reservedChars
    · rw [foldl_escChar_singleton_mem x hx, escF, if_pos hx]
    · rw [foldl_escChar_singleton_not_mem reservedChars x hx, escF, if_neg hx]
  rw [hfun]

/-- Every reserved character occurring in an escaped text is immediately preceded by
    an escape marker. -/
theorem esc_occ {c : Char} (hc : c ∈ reservedChars) :
    ∀ (l l₁ l₂ : List Char), escape_markdown_v2 l = l₁ ++ c :: l₂ →
      ∃ t, l₁ = t ++ ['\\'] := by
  intro l
  rw [escape_markdown_v2_eq_flatMap]
  induction l with
  | nil =>
    intro l₁ l₂ h
    exact absurd h (by simp)
  | cons x l ih =>
    intro l₁ l₂ h
    rw [List.flatMap_cons] at h
    by_cases hx : x ∈ reservedChars
    · rw [escF, if_pos hx] at h
      cases l₁ with
      | nil =>
        injection h with h1 _
        rw [← h1] at hc
        exact absurd hc (by decide)
      | cons a l₁ =>
        injection h with h1 h2
        cases l₁ with
        | nil =>
          exact ⟨[], by rw [← h1]; simp⟩
        | cons b l₁ =>
          injection h2 with h3 h4
          obtain ⟨t, ht⟩ := ih l₁ l₂ h4
          exact ⟨a :: b :: t, by rw [ht]; simp⟩
    · rw [escF, if_neg hx] at h
      cases l₁ with
      | nil =>
        injection h with h1 _
        rw [h1] at hx
        exact absurd hc hx
      | cons a l₁ =>
        injection h with _ h2
        obtain ⟨t, ht⟩ := ih l₁ l₂ h2
        exact ⟨a :: t, by rw [ht]; simp⟩

/-- In the escaped form of a marker-free text, every escape marker is immediately
    followed by a reserved character. -/
theorem esc_backslash_succ :
    ∀ (l : List Char), '\\' ∉ l → ∀ (l₁ l₂ : List Char),
      escape_markdown_v2 l = l₁ ++ '\\' :: l₂ →
      ∃ c t, l₂ = c :: t ∧ c ∈ reservedChars := by
  intro l
  rw [escape_markdown_v2_eq_flatMap]
  induction l with
  | nil =>
    intro _ l₁ l₂ h
    exact absurd h (by simp)
  | cons x l ih =>
    intro hl l₁ l₂ h
    have hx' : x ≠ '\\' := fun he => hl (he ▸ List.mem_cons_self x l)
    have hltail : '\\' ∉ l := fun hm => hl (List.mem_cons_of_mem x hm)
    rw [List.flatMap_cons] at h
    by_cases hx : x ∈ reservedChars
    · rw [escF, if_pos hx] at h
      cases l₁ with
      | nil =>
        injection h with _ h2
        exact ⟨x, l.flatMap escF, h2.symm, hx⟩
      | cons a l₁ =>
        injection h with h1 h2
        cases l₁ with
        | nil =>
          injection h2 with h3 _
          exact absurd h3 hx'
        | cons b l₁ =>
          injection h2 with h3 h4
          exact ih hltail l₁ l₂ h4
    · rw [escF, if_neg hx] at h
      cases l₁ with
      | nil =>
        injection h with h1 _
        exact absurd h1 hx'
      | cons a l₁ =>
        injection h with _ h2
        exact ih hltail l₁ l₂ h2

/-- A character of the text contributes its escaped block to the escaped text. -/
theorem esc_mem_block {x : Char} {l : List Char} (h : x ∈ l) :
    escF x <:+: escape_markdown_v2 l := by
  rw [escape_markdown_v2_eq_flatMap]
  obtain ⟨s, t, rfl⟩ := List.append_of_mem h
  rw [List.flatMap_append, List.flatMap_cons]
  exact ⟨s.flatMap escF, t.flatMap escF, by simp⟩

/-- Locating one occurrence inside a concatenation. -/
theorem occ_append {α : Type} {A B l₁ l₂ : List α} {c : α}
    (h : A ++ B = l₁ ++ c :: l₂) :
    (∃ a₂, A = l₁ ++ c :: a₂ ∧ l₂ = a₂ ++ B) ∨
    (∃ b₁, l₁ = A ++ b₁ ∧ B = b₁ ++ c :: l₂) := by
  rcases List.append_eq_append_iff.mp h with ⟨w, hw1, hw2⟩ | ⟨w, hw1, hw2⟩
  · exact Or.inr ⟨w, hw1, hw2⟩
  · cases w with
    | nil =>
      have hA : l₁ = A := by simpa using hw1.symm
      have hB : B = c :: l₂ := by simpa using hw2.symm
      exact Or.inr ⟨[], by simp [hA], by simp [hB]⟩
    | cons e w =>
      injection hw2 with h1 h2
      exact Or.inl ⟨w, by rw [hw1, h1], h2⟩

/-- An occurrence of c in a list where c occurs exactly once, flanked by c-free
    parts, is that occurrence. -/
theorem occ_unique {α : Type} {B C pl₁ pl₂ : List α} {c : α} (hB : c ∉ B) (hC : c ∉ C)
    (h : B ++ c :: C = pl₁ ++ c :: pl₂) : pl₁ = B ∧ pl₂ = C := by
  rcases occ_append h with ⟨a₂, ha1, _⟩ | ⟨b₁, hb1, hb2⟩
  · exact absurd (ha1 ▸ List.mem_append.mpr (Or.inr (List.mem_cons_self c a₂))) hB
  · cases b₁ with
    | nil =>
      injection hb2 with _ h2
      exact ⟨by simpa using hb1, h2.symm⟩
    | cons e b₁ =>
      injection hb2 with h1 h2
      exact absurd (h2 ▸ List.mem_append.mpr (Or.inr (List.mem_cons_self c pl₂))) hC

/-! Characters of rendered numbers. -/

theorem digitChar_isDigit (m : Nat) (h : m < 10) : (Nat.digitChar m).isDigit = true := by
  interval_cases m <;> decide

theorem toDigitsCore_digits :
    ∀ (fuel n : Nat) (ds : List Char), (∀ c ∈ ds, c.isDigit = true) →
      ∀ c ∈ Nat.toDigitsCore 10 fuel n ds, c.isDigit = true := by
  intro fuel
  induction fuel with
  | zero =>
    intro n ds hds c hc
    rw [Nat.toDigitsCore] at hc
    exact hds c hc
  | succ fuel ih =>
    intro n ds hds c hc
    rw [Nat.toDigitsCore] at hc
    by_cases h10 : n / 10 = 0
    · rw [if_pos h10] at hc
      rcases List.mem_cons.mp hc with h | h
      · rw [h]
        exact digitChar_isDigit _ (Nat.mod_lt n (by omega))
      · exact hds c h
    · rw [if_neg h10] at hc
      refine ih (n / 10) _ ?_ c hc
      intro d hd
      rcases List.mem_cons.mp hd with h | h
      · rw [h]
        exact digitChar_isDigit _ (Nat.mod_lt n (by omega))
      · exact hds d h

/-- Every character of the decimal rendering of a Nat is a digit. -/
theorem natRepr_digits (n : Nat) : ∀ c ∈ (Nat.repr n).toList, c.isDigit = true := by
  intro c hc
  have he : (Nat.repr n).toList = Nat.toDigitsCore 10 (n + 1) n [] := rfl
  rw [he] at hc
  exact toDigitsCore_digits (n + 1) n [] (by simp) c hc

theorem char_not_mem_natRepr {c : Char} (h : c.isDigit = false) (idx : Nat) :
    c ∉ (Nat.repr idx).toList := by
  intro hm
  have h2 := natRepr_digits idx c hm
  rw [h] at h2
  exact Bool.noConfusion h2

/-- Every character of the decimal rendering of an Int is a digit or a minus sign. -/
theorem intToString_chars (i : Int) :
    ∀ c ∈ (toString i).toList, c.isDigit = true ∨ c = '-' := by
  cases i with
  | ofNat m =>
    intro c hc
    exact Or.inl (natRepr_digits m c hc)
  | negSucc m =>
    intro c hc
    have h2 : (toString (Int.negSucc m)).toList = '-' :: (Nat.repr (m + 1)).toList := by
      show ("-" ++ Nat.repr (m + 1)).data = '-' :: (Nat.repr (m + 1)).data
      rw [String.data_append]
      rfl
    rw [h2] at hc
    rcases List.mem_cons.mp hc with h | h
    · exact Or.inr h
    · exact Or.inl (natRepr_digits (m + 1) c h)

/-- The rendered price strings contain no escape marker. -/
theorem backslash_not_mem_price (i : Int) : '\\' ∉ (toString i ++ " ريال").toList := by
  intro h
  have he : (toString i ++ " ريال").toList = (toString i).toList ++ (" ريال" : String).toList :=
    String.data_append _ _
  rw [he] at h
  rcases List.mem_append.mp h with h | h
  · rcases intToString_chars i '\\' h with hd | hd
    · exact absurd hd (by decide)
    · exact absurd hd (by decide)
  · exact absurd h (by decide)

/-! Occurrence analysis of the no-discount caption: where an asterisk, tilde or
    escape marker can sit inside the composed caption when old_price is not
    positive. -/

/-- Right-associated decomposition of the no-discount caption. -/
theorem captionTemplate_false_parts (idx : Nat) (escT eo escN es : List Char) :
    captionTemplate idx escT false eo escN es =
      "*🏷️ المنتج ".toList ++ ((Nat.repr idx).toList ++ (": ".toList ++ (escT ++
        ("*\n\n".toList ++ ("💵 *السعر: ".toList ++ (escN ++ "*".toList)))))) := by
  rw [captionTemplate]
  simp [List.append_assoc]

/-- Any asterisk of the no-discount caption sits at the very front, right after an
    escape marker, right before a newline, right before the price-line word, or at
    the very end. -/
theorem caption_false_star_occ (idx : Nat) (t n : List Char) (eo es l₁ l₂ : List Char)
    (h : captionTemplate idx (escape_markdown_v2 t) false eo (escape_markdown_v2 n) es =
      l₁ ++ '*' :: l₂) :
    l₁ = [] ∨ (∃ u, l₁ = u ++ ['\\']) ∨ l₂.head? = some '\n' ∨ l₂.head? = some 'ا' ∨ l₂ = [] := by
  rw [captionTemplate_false_parts] at h
  rcases occ_append h with ⟨a₂, hA, _⟩ | ⟨b₁, hl₁, h1⟩
  · have hsplit : "*🏷️ المنتج ".toList = ([] : List Char) ++ '*' :: "🏷️ المنتج ".toList := by
      decide
    rw [hsplit] at hA
    obtain ⟨hl, _⟩ := occ_unique (by simp) (by decide) hA
    exact Or.inl hl
  · rcases occ_append h1 with ⟨a₂, hD, _⟩ | ⟨b₂, hb₁, h2⟩
    · have hmem : '*' ∈ (Nat.repr idx).toList := by
        rw [hD]
        exact List.mem_append.mpr (Or.inr (List.mem_cons_self _ _))
      exact absurd hmem (char_not_mem_natRepr (by decide) idx)
    · rcases occ_append h2 with ⟨a₂, hB, _⟩ | ⟨b₃, hb₂, h3⟩
      · have hmem : '*' ∈ ": ".toList := by
          rw [hB]
          exact List.mem_append.mpr (Or.inr (List.mem_cons_self _ _))
        exact absurd hmem (by decide)
      · rcases occ_append h3 with ⟨a₂, hT, _⟩ | ⟨b₄, hb₃, h4⟩
        · obtain ⟨u, hu⟩ := esc_occ (by decide) t b₃ a₂ hT
          exact Or.inr (Or.inl ⟨"*🏷️ المنتج ".toList ++ ((Nat.repr idx).toList ++ (": ".toList ++ u)),
            by simp [hl₁, hb₁, hb₂, hu, List.append_assoc]⟩)
        · rcases occ_append h4 with ⟨a₂, hC1, hl₂⟩ | ⟨b₅, hb₄, h5⟩
          · have hsplit : "*\n\n".toList = ([] : List Char) ++ '*' :: ['\n', '\n'] := by decide
            rw [hsplit] at hC1
            obtain ⟨_, ha₂⟩ := occ_unique (by simp) (by decide) hC1
            refine Or.inr (Or.inr (Or.inl ?_))
            rw [hl₂, ha₂]
            rfl
          · rcases occ_append h5 with ⟨a₂, hC2, hl₂⟩ | ⟨b₆, hb₅, h6⟩
            · have hsplit : "💵 *السعر: ".toList =
                  ['💵', ' '] ++ '*' :: ['ا', 'ل', 'س', 'ع', 'ر', ':', ' '] := by decide
              rw [hsplit] at hC2
              obtain ⟨_, ha₂⟩ := occ_unique (by decide) (by decide) hC2
              refine Or.inr (Or.inr (Or.inr (Or.inl ?_)))
              rw [hl₂, ha₂]
              rfl
            · rcases occ_append h6 with ⟨a₂, hN, _⟩ | ⟨b₇, hb₆, h7⟩
              · obtain ⟨u, hu⟩ := esc_occ (by decide) n b₆ a₂ hN
                refine Or.inr (Or.inl ⟨"*🏷️ المنتج ".toList ++ ((Nat.repr idx).toList ++
                  (": ".toList ++ (escape_markdown_v2 t ++ ("*\n\n".toList ++
                  ("💵 *السعر: ".toList ++ u))))), ?_⟩)
                simp [hl₁, hb₁, hb₂, hb₃, hb₄, hb₅, hu, List.append_assoc]
              · have hsplit : "*".toList = ([] : List Char) ++ '*' :: ([] : List Char) := by
                  decide
                rw [hsplit] at h7
                obtain ⟨_, hl₂⟩ := occ_unique (by simp) (by simp) h7
                exact Or.inr (Or.inr (Or.inr (Or.inr hl₂)))

/-- Any tilde of the no-discount caption is immediately preceded by an escape
    marker (the literal template parts contain none). -/
theorem caption_false_tilde_occ (idx : Nat) (t n : List Char) (eo es l₁ l₂ : List Char)
    (h : captionTemplate idx (escape_markdown_v2 t) false eo (escape_markdown_v2 n) es =
      l₁ ++ '~' :: l₂) :
    ∃ u, l₁ = u ++ ['\\'] := by
  rw [captionTemplate_false_parts] at h
  rcases occ_append h with ⟨a₂, hA, _⟩ | ⟨b₁, hl₁, h1⟩
  · have hmem : '~' ∈ "*🏷️ المنتج ".toList := by
      rw [hA]
      exact List.mem_append.mpr (Or.inr (List.mem_cons_self _ _))
    exact absurd hmem (by decide)
  · rcases occ_append h1 with ⟨a₂, hD, _⟩ | ⟨b₂, hb₁, h2⟩
    · have hmem : '~' ∈ (Nat.repr idx).toList := by
        rw [hD]
        exact List.mem_append.mpr (Or.inr (List.mem_cons_self _ _))
      exact absurd hmem (char_not_mem_natRepr (by decide) idx)
    · rcases occ_append h2 with ⟨a₂, hB, _⟩ | ⟨b₃, hb₂, h3⟩
      · have hmem : '~' ∈ ": ".toList := by
          rw [hB]
          exact List.mem_append.mpr (Or.inr (List.mem_cons_self _ _))
        exact absurd hmem (by decide)
      · rcases occ_append h3 with ⟨a₂, hT, _⟩ | ⟨b₄, hb₃, h4⟩
        · obtain ⟨u, hu⟩ := esc_occ (by decide) t b₃ a₂ hT
          exact ⟨"*🏷️ المنتج ".toList ++ ((Nat.repr idx).toList ++ (": ".toList ++ u)),
            by simp [hl₁, hb₁, hb₂, hu, List.append_assoc]⟩
        · rcases occ_append h4 with ⟨a₂, hC1, _⟩ | ⟨b₅, hb₄, h5⟩
          · have hmem : '~' ∈ "*\n\n".toList := by
              rw [hC1]
              exact List.mem_append.mpr (Or.inr (List.mem_cons_self _ _))
            exact absurd hmem (by decide)
          · rcases occ_append h5 with ⟨a₂, hC2, _⟩ | ⟨b₆, hb₅, h6⟩
            · have hmem : '~' ∈ "💵 *السعر: ".toList := by
                rw [hC2]
                exact List.mem_append.mpr (Or.inr (List.mem_cons_self _ _))
              exact absurd hmem (by decide)
            · rcases occ_append h6 with ⟨a₂, hN, _⟩ | ⟨b₇, hb₆, h7⟩
              · obtain ⟨u, hu⟩ := esc_occ (by decide) n b₆ a₂ hN
                refine ⟨"*🏷️ المنتج ".toList ++ ((Nat.repr idx).toList ++
                  (": ".toList ++ (escape_markdown_v2 t ++ ("*\n\n".toList ++
                  ("💵 *السعر: ".toList ++ u))))), ?_⟩
                simp [hl₁, hb₁, hb₂, hb₃, hb₄, hb₅, hu, List.append_assoc]
              · have hmem : '~' ∈ "*".toList := by
                  rw [h7]
                  exact List.mem_append.mpr (Or.inr (List.mem_cons_self _ _))
                exact absurd hmem (by decide)

/-- When title and price text carry no escape marker of their own, any escape marker
    of the no-discount caption is immediately followed by a reserved character. -/
theorem caption_false_backslash_occ (idx : Nat) (t n : List Char) (eo es l₁ l₂ : List Char)
    (ht : '\\' ∉ t) (hn : '\\' ∉ n)
    (h : captionTemplate idx (escape_markdown_v2 t) false eo (escape_markdown_v2 n) es =
      l₁ ++ '\\' :: l₂) :
    ∃ c u, l₂ = c :: u ∧ c ∈ reservedChars := by
  rw [captionTemplate_false_parts] at h
  rcases occ_append h with ⟨a₂, hA, _⟩ | ⟨b₁, hl₁, h1⟩
  · have hmem : '\\' ∈ "*🏷️ المنتج ".toList := by
      rw [hA]
      exact List.mem_append.mpr (Or.inr (List.mem_cons_self _ _))
    exact absurd hmem (by decide)
  · rcases occ_append h1 with ⟨a₂, hD, _⟩ | ⟨b₂, hb₁, h2⟩
    · have hmem : '\\' ∈ (Nat.repr idx).toList := by
        rw [hD]
        exact List.mem_append.mpr (Or.inr (List.mem_cons_self _ _))
      exact absurd hmem (char_not_mem_natRepr (by decide) idx)
    · rcases occ_append h2 with ⟨a₂, hB, _⟩ | ⟨b₃, hb₂, h3⟩
      · have hmem : '\\' ∈ ": ".toList := by
          rw [hB]
          exact List.mem_append.mpr (Or.inr (List.mem_cons_self _ _))
        exact absurd hmem (by decide)
      · rcases occ_append h3 with ⟨a₂, hT, hl₂⟩ | ⟨b₄, hb₃, h4⟩
        · obtain ⟨c, u, ha₂, hc⟩ := esc_backslash_succ t ht b₃ a₂ hT
          refine ⟨c, u ++ ("*\n\n".toList ++ ("💵 *السعر: ".toList ++
            (escape_markdown_v2 n ++ "*".toList))), ?_, hc⟩
          rw [hl₂, ha₂]
          rfl
        · rcases occ_append h4 with ⟨a₂, hC1, _⟩ | ⟨b₅, hb₄, h5⟩
          · have hmem : '\\' ∈ "*\n\n".toList := by
              rw [hC1]
              exact List.mem_append.mpr (Or.inr (List.mem_cons_self _ _))
            exact absurd hmem (by decide)
          · rcases occ_append h5 with ⟨a₂, hC2, _⟩ | ⟨b₆, hb₅, h6⟩
            · have hmem : '\\' ∈ "💵 *السعر: ".toList := by
                rw [hC2]
                exact List.mem_append.mpr (Or.inr (List.mem_cons_self _ _))
              exact absurd hmem (by decide)
            · rcases occ_append h6 with ⟨a₂, hN, hl₂⟩ | ⟨b₇, hb₆, h7⟩
              · obtain ⟨c, u, ha₂, hc⟩ := esc_backslash_succ n hn b₆ a₂ hN
                refine ⟨c, u ++ "*".toList, ?_, hc⟩
                rw [hl₂, ha₂]
                rfl
              · have hmem : '\\' ∈ "*".toList := by
                  rw [h7]
                  exact List.mem_append.mpr (Or.inr (List.mem_cons_self _ _))
                exact absurd hmem (by decide)

/-- The no-discount caption contains no strike-through marker pair. -/
theorem caption_false_no_strike (idx : Nat) (t n : List Char) (eo es : List Char) :
    ¬ (['~', '~'] <:+:
      captionTemplate idx (escape_markdown_v2 t) false eo (escape_markdown_v2 n) es) := by
  rintro ⟨s, u, hsu⟩
  have h2 : captionTemplate idx (escape_markdown_v2 t) false eo (escape_markdown_v2 n) es =
      (s ++ ['~']) ++ '~' :: u := by
    rw [← hsu]
    simp
  obtain ⟨w, hw⟩ := caption_false_tilde_occ idx t n eo es (s ++ ['~']) u h2
  have hlast := congrArg List.getLast? hw
  rw [List.getLast?_concat, List.getLast?_concat] at hlast
  injection hlast with hlast
  exact absurd hlast (by decide)

/-- The no-discount caption contains no savings-line marker: the asterisk of the
    marker would have to follow a space and precede the Arabic word for savings. -/
theorem caption_false_no_savings (idx : Nat) (t n : List Char) (eo es : List Char) :
    ¬ ("💰 *وفرت: ".toList <:+:
      captionTemplate idx (escape_markdown_v2 t) false eo (escape_markdown_v2 n) es) := by
  rintro ⟨s, u, hsu⟩
  have hM : "💰 *وفرت: ".toList = ['💰', ' '] ++ '*' :: ['و', 'ف', 'ر', 'ت', ':', ' '] := by
    decide
  rw [hM] at hsu
  have h2 : captionTemplate idx (escape_markdown_v2 t) false eo (escape_markdown_v2 n) es =
      (s ++ ['💰', ' ']) ++ '*' :: (['و', 'ف', 'ر', 'ت', ':', ' '] ++ u) := by
    rw [← hsu]
    simp
  rcases caption_false_star_occ idx t n eo es _ _ h2 with h | ⟨w, hw⟩ | h | h | h
  · exact absurd h (by simp)
  · have hlast := congrArg List.getLast? hw
    have he : s ++ ['💰', ' '] = (s ++ ['💰']) ++ [' '] := by simp
    rw [he, List.getLast?_concat, List.getLast?_concat] at hlast
    injection hlast with hlast
    exact absurd hlast (by decide)
  · exact absurd h (by simp)
  · exact absurd h (by simp)
  · exact absurd h (by simp)

/-- When title and price text carry no escape marker of their own, the no-discount
    caption contains no doubled escape marker. -/
theorem caption_false_no_double_backslash (idx : Nat) (t n : List Char) (eo es : List Char)
    (ht : '\\' ∉ t) (hn : '\\' ∉ n) :
    ¬ (['\\', '\\'] <:+:
      captionTemplate idx (escape_markdown_v2 t) false eo (escape_markdown_v2 n) es) := by
  rintro ⟨s, u, hsu⟩
  have h2 : captionTemplate idx (escape_markdown_v2 t) false eo (escape_markdown_v2 n) es =
      s ++ '\\' :: ('\\' :: u) := by
    rw [← hsu]
    simp
  obtain ⟨c, w, hcw, hc⟩ := caption_false_backslash_occ idx t n eo es s ('\\' :: u) ht hn h2
  injection hcw with hcw _
  rw [← hcw] at hc
  exact absurd hc (by decide)

/-! Bridge lemmas: the raw Python pipeline on a well-formed record computes the
    typed rendering. -/

theorem toJ_getItem_title (p : Product) : pyGetItem p.toJ "title" = .ok (.str p.title) := rfl

theorem toJ_getItem_new_price (p : Product) :
    pyGetItem p.toJ "new_price" = .ok (.num p.new_price) := rfl

theorem toJ_getItem_detail_url (p : Product) :
    pyGetItem p.toJ "detail_url" = .ok (.str p.detail_url) := rfl

theorem toJ_getItem_id (p : Product) : pyGetItem p.toJ "id" = .ok (.num p.id) := rfl

theorem toJ_dictGet_old (p : Product) :
    pyDictGet p.toJ "old_price" (.num 0) = .ok (.num p.old_price) := rfl

theorem toJ_dictGet_image (p : Product) :
    pyDictGet p.toJ "image" (.str "") = .ok (.str p.image) := rfl

theorem toJ_dictGet_category (p : Product) :
    pyDictGet p.toJ "category" .null = .ok (.str p.category) := rfl

theorem except_ok_bind {α β : Type} (a : α) (f : α → Except PyExc β) :
    (Except.ok a : Except PyExc α) >>= f = f a := rfl

theorem pyGtZero_num (n : Int) : pyGtZero (.num n) = .ok (decide (0 < n)) := rfl

theorem pySub_num (a b : Int) : pySub (.num a) (.num b) = .ok (.num (a - b)) := rfl

theorem pyEscape_str (s : String) : pyEscape (.str s) = .ok (escape_markdown_v2 s.toList) := rfl

theorem pyStr_num (n : Int) : pyStr (.num n) = toString n := rfl

theorem build_caption_py_toJ (p : Product) (idx : Nat) :
    _build_caption_py p.toJ idx = .ok (_build_caption p idx) := by
  by_cases h : 0 < p.old_price
  · simp only [_build_caption_py, toJ_getItem_title, toJ_dictGet_old, toJ_getItem_new_price,
      except_ok_bind, pyGtZero_num, pySub_num, pyEscape_str, pyStr_num, _build_caption, h]
    simp
  · simp only [_build_caption_py, toJ_getItem_title, toJ_dictGet_old, toJ_getItem_new_price,
      except_ok_bind, pyGtZero_num, pySub_num, pyEscape_str, pyStr_num, _build_caption, h]
    simp

theorem pyPathStr_str (s : String) : pyPathStr (.str s) = .ok s := rfl

theorem pyFilter_toJ (key : String) (ps : List Product) :
    pyFilterByCategory key (ps.map Product.toJ) =
      .ok ((ps.filter (fun p => p.category = key)).map Product.toJ) := by
  induction ps with
  | nil => rfl
  | cons p ps ih =>
    by_cases h : p.category = key
    · simp only [List.map_cons, pyFilterByCategory, toJ_dictGet_category, except_ok_bind, ih,
        List.filter_cons]
      simp [pyEqStr, h]
    · simp only [List.map_cons, pyFilterByCategory, toJ_dictGet_category, except_ok_bind, ih,
        List.filter_cons]
      simp [pyEqStr, h]

theorem get_products_toJ (ps : List Product) (key : String) :
    get_products_by_category (.arr (ps.map Product.toJ)) key =
      .ok (((ps.filter (fun p => p.category = key)).take 3).map Product.toJ) := by
  simp only [get_products_by_category, pyIter, except_ok_bind, pyFilter_toJ]
  simp [List.map_take]

/-- Whether send_product_message attaches a photo for a well-formed record: its own
    image when present on disk, else the placeholder when that is. -/
def photoFlag (fs : String → Bool) (p : Product) : Bool :=
  fs p.image || fs placeholderPath

theorem photo_isSome (fs : String → Bool) (p : Product) :
    (if fs p.image then some p.image
     else if fs placeholderPath then some placeholderPath else none).isSome = photoFlag fs p := by
  cases h1 : fs p.image <;> cases h2 : fs placeholderPath <;> simp [photoFlag, h1, h2]

theorem send_toJ (fs : String → Bool) (richOk plainOk : Bool) (p : Product) (idx : Nat) :
    send_product_message fs richOk plainOk p.toJ idx =
      if richOk then
        ([.richSend (photoFlag fs p) (_build_caption p idx) (.str p.detail_url) true], none)
      else if plainOk then
        ([.richSend (photoFlag fs p) (_build_caption p idx) (.str p.detail_url) false,
          .plainSend (plain_caption (_build_caption p idx)) (.str p.detail_url) true], none)
      else
        ([.richSend (photoFlag fs p) (_build_caption p idx) (.str p.detail_url) false,
          .plainSend (plain_caption (_build_caption p idx)) (.str p.detail_url) false],
          some .deliveryError) := by
  simp only [send_product_message, toJ_dictGet_image, pyPathStr_str, build_caption_py_toJ,
    toJ_getItem_detail_url, toJ_getItem_id, photo_isSome]

/-- The effect trace of the send loop when every rich send succeeds. -/
def sendEffects (fs : String → Bool) : List Product → Nat → List Eff
| [], _ => []
| p :: rest, idx =>
  .richSend (photoFlag fs p) (_build_caption p idx) (.str p.detail_url) true ::
    sendEffects fs rest (idx + 1)

theorem sendLoop_all_ok (fs : String → Bool) (ps : List Product) : ∀ idx : Nat,
    sendLoop fs (fun _ => true) (fun _ => true) (ps.map Product.toJ) idx =
      (sendEffects fs ps idx, none) := by
  induction ps with
  | nil => intro idx; rfl
  | cons p ps ih =>
    intro idx
    simp only [List.map_cons, sendLoop, send_toJ, if_true, ih, sendEffects]
    simp

theorem cardCaptions_sendEffects (fs : String → Bool) (ps : List Product) : ∀ idx : Nat,
    cardCaptions (sendEffects fs ps idx) = captionsFrom ps idx := by
  induction ps with
  | nil => intro idx; rfl
  | cons p ps ih =>
    intro idx
    simp [sendEffects, cardCaptions, captionsFrom, ← ih (idx + 1)]

theorem load_products_json_arr (l : List JValue) :
    load_products (.json (.arr l)) = .ok (.arr l) := rfl

/-- The reverse lookup succeeds on every value of CATEGORY_MAP and returns its key. -/
theorem reverseLookup_of_mem {key label : String} (h : (key, label) ∈ CATEGORY_MAP) :
    reverseLookupCategory label = some key := by
  simp only [CATEGORY_MAP, List.mem_cons, List.mem_singleton, List.not_mem_nil, or_false,
    Prod.mk.injEq] at h
  rcases h with ⟨h1, h2⟩ | ⟨h1, h2⟩ | ⟨h1, h2⟩ | ⟨h1, h2⟩ <;> subst h1 <;> subst h2 <;> rfl

theorem category_handler_typed_empty (ps : List Product) (fs : String → Bool)
    (richOk plainOk : Nat → Bool) {key label : String}
    (hmem : (key, label) ∈ CATEGORY_MAP)
    (hempty : ps.filter (fun p => p.category = key) = []) :
    category_handler (.json (.arr (ps.map Product.toJ))) fs richOk plainOk label =
      ⟨[.menuMsg emptyCategoryText (.rows [[backToPlatformsLabel]]) true], .completed⟩ := by
  simp only [category_handler, load_products_json_arr, reverseLookup_of_mem hmem,
    get_products_toJ, hempty]
  rfl

theorem category_handler_typed_ok (ps : List Product) (fs : String → Bool)
    {key label : String} (hmem : (key, label) ∈ CATEGORY_MAP)
    (hne : ps.filter (fun p => p.category = key) ≠ []) :
    category_handler (.json (.arr (ps.map Product.toJ))) fs
        (fun _ => true) (fun _ => true) label =
      ⟨.menuMsg (loadingText label) .removeKb true ::
        (sendEffects fs ((ps.filter (fun p => p.category = key)).take 3) 1 ++
          [.menuMsg endOfListText (.rows [[showMoreLabel, backToPlatformsLabel]]) true]),
        .completed⟩ := by
  have htake : (ps.filter (fun p => p.category = key)).take 3 ≠ [] := by
    intro h
    rw [List.take_eq_nil_iff] at h
    rcases h with h | h
    · exact absurd h (by omega)
    · exact hne h
  have hmap : (((ps.filter (fun p => p.category = key)).take 3).map Product.toJ).isEmpty
      = false := by
    cases hcase : ((ps.filter (fun p => p.category = key)).take 3).map Product.toJ with
    | nil =>
      rw [List.map_eq_nil_iff] at hcase
      exact absurd hcase htake
    | cons a l => rfl
  simp only [category_handler, load_products_json_arr, reverseLookup_of_mem hmem,
    get_products_toJ, hmap, sendLoop_all_ok]
  simp

theorem except_error_bind {α β : Type} (e : PyExc) (f : α → Except PyExc β) :
    (Except.error e : Except PyExc α) >>= f = .error e := rfl

theorem pyLen_error_eq {v : JValue} {e : PyExc} (h : pyLen v = .error e) : e = .typeError := by
  cases v <;> simp_all [pyLen]

/-! Behaviour of str.replace as used by the plain-text fallback. -/

/-- A character foreign to the pattern survives every replacement pass. -/
theorem pyReplaceF_mem {c : Char} {pat rep : List Char} (hc : c ∉ pat) :
    ∀ (fuel : Nat) (l : List Char), c ∈ l → c ∈ pyReplaceF pat rep fuel l := by
  intro fuel
  induction fuel with
  | zero =>
    intro l hl
    cases l with
    | nil => exact absurd hl (by simp)
    | cons x rest => simpa [pyReplaceF] using hl
  | succ fuel ih =>
    intro l hl
    cases l with
    | nil => exact absurd hl (by simp)
    | cons x rest =>
      simp only [pyReplaceF]
      by_cases hp : pat.isPrefixOf (x :: rest) ∧ pat ≠ []
      · rw [if_pos hp]
        obtain ⟨t, ht⟩ := List.isPrefixOf_iff_prefix.mp hp.1
        have hdrop : (x :: rest).drop pat.length = t := by rw [← ht, List.drop_left]
        have hct : c ∈ t := by
          rw [← ht] at hl
          rcases List.mem_append.mp hl with h | h
          · exact absurd h hc
          · exact h
        refine List.mem_append.mpr (Or.inr ?_)
        rw [hdrop]
        exact ih t hct
      · rw [if_neg hp]
        rcases List.mem_cons.mp hl with h | h
        · rw [h]
          exact List.mem_cons_self x _
        · exact List.mem_cons_of_mem x (ih rest h)

theorem pyReplace_mem {c : Char} {pat rep : List Char} (hc : c ∉ pat) {l : List Char}
    (hl : c ∈ l) : c ∈ pyReplace l pat rep :=
  pyReplaceF_mem hc l.length l hl

/-- An escape marker whose successor is not an asterisk survives the escaped-asterisk
    replacement pass of the plain-text fallback. -/
theorem pyReplaceF_backslash {rep : List Char} :
    ∀ (fuel : Nat) (l l₁ l₂ : List Char) (c : Char), l = l₁ ++ '\\' :: c :: l₂ → c ≠ '*' →
      '\\' ∈ pyReplaceF ['\\', '*'] rep fuel l := by
  intro fuel
  induction fuel with
  | zero =>
    intro l l₁ l₂ c hl hc
    have hmem : '\\' ∈ l := by
      rw [hl]
      exact List.mem_append.mpr (Or.inr (List.mem_cons_self _ _))
    cases l with
    | nil => exact absurd hmem (by simp)
    | cons x rest => simpa [pyReplaceF] using hmem
  | succ fuel ih =>
    intro l l₁ l₂ c hl hc
    subst hl
    cases l₁ with
    | nil =>
      have hp : ¬ ((['\\', '*'] : List Char).isPrefixOf ('\\' :: c :: l₂) ∧
          (['\\', '*'] : List Char) ≠ []) := by
        rintro ⟨h1, _⟩
        obtain ⟨t, ht⟩ := List.isPrefixOf_iff_prefix.mp h1
        injection ht with _ ht2
        injection ht2 with h3 _
        exact hc h3.symm
      simp only [List.nil_append, pyReplaceF]
      rw [if_neg hp]
      exact List.mem_cons_self _ _
    | cons x l₁ =>
      simp only [List.cons_append, pyReplaceF, List.append_eq]
      by_cases hp : (['\\', '*'] : List Char).isPrefixOf (x :: (l₁ ++ '\\' :: c :: l₂)) ∧
          (['\\', '*'] : List Char) ≠ []
      · rw [if_pos hp]
        obtain ⟨t, ht⟩ := List.isPrefixOf_iff_prefix.mp hp.1
        injection ht with h1 ht2
        cases l₁ with
        | nil =>
          injection ht2 with h3 _
          exact absurd h3.symm (by decide)
        | cons y l₁ =>
          injection ht2 with h3 ht3
          refine List.mem_append.mpr (Or.inr ?_)
          show '\\' ∈ pyReplaceF ['\\', '*'] rep fuel (l₁ ++ '\\' :: c :: l₂)
          exact ih (l₁ ++ '\\' :: c :: l₂) l₁ l₂ c rfl hc
      · rw [if_neg hp]
        exact List.mem_cons_of_mem x (ih (l₁ ++ '\\' :: c :: l₂) l₁ l₂ c rfl hc)

/-- An escape marker before any reserved character other than the asterisk is still
    present in the plain-text fallback caption. -/
theorem plain_caption_keeps_backslash {cap l₁ l₂ : List Char} {c : Char}
    (hcap : cap = l₁ ++ '\\' :: c :: l₂) (hc : c ≠ '*') : '\\' ∈ plain_caption cap := by
  rw [plain_caption]
  apply pyReplace_mem (show '\\' ∉ "➡️".toList by decide)
  apply pyReplace_mem (show '\\' ∉ "~~".toList by decide)
  have hpat : "\\*".toList = ['\\', '*'] := by decide
  rw [pyReplace, hpat]
  exact pyReplaceF_backslash cap.length cap l₁ l₂ c hcap hc

/-! Routing facts. -/

theorem dispatch_show_more (hour : Nat) (src : CatalogSource) (fs : String → Bool)
    (richOk plainOk : Nat → Bool) :
    dispatch hour src fs richOk plainOk showMoreLabel = some ⟨amazon_effects, .completed⟩ := by
  rw [dispatch, if_neg (by decide), if_neg (by decide), if_neg (by decide),
    if_neg (by decide), if_pos rfl]

theorem dispatch_amazon (hour : Nat) (src : CatalogSource) (fs : String → Bool)
    (richOk plainOk : Nat → Bool) :
    dispatch hour src fs richOk plainOk amazonLabel = some ⟨amazon_effects, .completed⟩ := by
  rw [dispatch, if_neg (by decide), if_pos rfl]

theorem dispatch_category (hour : Nat) (src : CatalogSource) (fs : String → Bool)
    (richOk plainOk : Nat → Bool) (label : String) (h : label ∈ categoryLabels) :
    dispatch hour src fs richOk plainOk label =
      some (category_handler src fs richOk plainOk label) := by
  have h4 : ¬ (label = "/start") ∧ ¬ (label = amazonLabel) ∧
      ¬ (label = backToPlatformsLabel) := by
    simp only [categoryLabels, CATEGORY_MAP, List.map_cons, List.map_nil, List.mem_cons,
      List.not_mem_nil, or_false] at h
    rcases h with h | h | h | h <;> subst h <;> refine ⟨by decide, by decide, by decide⟩
  rw [dispatch, if_neg h4.1, if_neg h4.2.1, if_neg h4.2.2, if_pos h]

theorem dispatch_unmatched (hour : Nat) (src : CatalogSource) (fs : String → Bool)
    (richOk plainOk : Nat → Bool) (label : String) (h : label ∉ knownLabels) :
    dispatch hour src fs richOk plainOk label = none := by
  rw [dispatch]
  split_ifs with h1 h2 h3 h4 h5 h6
  · subst h1
    exact absurd (by decide) h
  · subst h2
    exact absurd (by decide) h
  · subst h3
    exact absurd (by decide) h
  · exact absurd (List.mem_append.mpr (Or.inl (List.mem_append.mpr (Or.inr h4)))) h
  · subst h5
    exact absurd (by decide) h
  · simp only [List.mem_cons, List.not_mem_nil, or_false] at h6
    rcases h6 with h6 | h6 <;> subst h6 <;> exact absurd (by decide) h
  · rfl

/-- Under the category-selection precondition, the reverse lookup always succeeds. -/
theorem reverseLookup_total (label : String) (h : label ∈ categoryLabels) :
    ∃ key, reverseLookupCategory label = some key ∧ (key, label) ∈ CATEGORY_MAP := by
  simp only [categoryLabels, CATEGORY_MAP, List.map_cons, List.map_nil, List.mem_cons,
    List.not_mem_nil, or_false] at h
  rcases h with h | h | h | h <;> subst h
  · exact ⟨"groceries", rfl, by decide⟩
  · exact ⟨"beauty", rfl, by decide⟩
  · exact ⟨"mobiles", rfl, by decide⟩
  · exact ⟨"home_appliances", rfl, by decide⟩

/-- The unknown-category reply branch of category_handler is unreachable when the
    inbound label really is a category button label. -/
theorem category_handler_not_unknown (src : CatalogSource) (fs : String → Bool)
    (richOk plainOk : Nat → Bool) (label : String) (h : label ∈ categoryLabels) :
    category_handler src fs richOk plainOk label ≠
      ⟨[.menuMsg unknownCategoryText .noKb false], .completed⟩ := by
  obtain ⟨key, hk, _⟩ := reverseLookup_total label h
  cases src with
  | missing =>
    intro heq
    simp only [category_handler, load_products] at heq
    simp at heq
  | badJson =>
    intro heq
    simp only [category_handler, load_products] at heq
    simp at heq
  | json v =>
    intro heq
    cases hlen : pyLen v with
    | error e =>
      have he := pyLen_error_eq hlen
      subst he
      simp only [category_handler, load_products, hlen, except_error_bind] at heq
      simp at heq
    | ok n =>
      simp only [category_handler, load_products, hlen, except_ok_bind, hk] at heq
      cases hg : get_products_by_category v key with
      | error e =>
        rw [hg] at heq
        simp at heq
      | ok cats =>
        rw [hg] at heq
        cases hcats : cats.isEmpty with
        | true => simp [hcats] at heq
        | false =>
          rcases hsl : sendLoop fs richOk plainOk cats 1 with ⟨effs, exc⟩
          cases exc with
          | some e => simp [hcats, hsl] at heq
          | none => simp [hcats, hsl] at heq

/-! Helpers for the claim statements. -/

theorem cardCaptions_wrap (t1 : String) (k1 : KbSpec) (b1 : Bool) (t2 : String) (k2 : KbSpec)
    (b2 : Bool) (l : List Eff) :
    cardCaptions (.menuMsg t1 k1 b1 :: (l ++ [.menuMsg t2 k2 b2])) = cardCaptions l := by
  simp [cardCaptions, List.filterMap_append, List.filterMap_cons]

theorem captionsFrom_length (l : List Product) : ∀ idx : Nat,
    (captionsFrom l idx).length = l.length := by
  induction l with
  | nil => intro idx; rfl
  | cons p r ih => intro idx; simp [captionsFrom, ih (idx + 1)]

theorem build_caption_ne_nil (p : Product) (idx : Nat) : _build_caption p idx ≠ [] := by
  simp only [_build_caption, captionTemplate]
  apply List.append_ne_nil_of_left_ne_nil
  apply List.append_ne_nil_of_left_ne_nil
  apply List.append_ne_nil_of_left_ne_nil
  apply List.append_ne_nil_of_left_ne_nil
  apply List.append_ne_nil_of_left_ne_nil
  decide

theorem captionsFrom_ne_nil (l : List Product) : ∀ (idx : Nat), ∀ cap ∈ captionsFrom l idx,
    cap ≠ [] := by
  induction l with
  | nil => intro idx cap hc; simp [captionsFrom] at hc
  | cons p r ih =>
    intro idx cap hc
    rw [captionsFrom] at hc
    rcases List.mem_cons.mp hc with h | h
    · rw [h]
      exact build_caption_ne_nil p idx
    · exact ih (idx + 1) cap h

theorem escTitle_part_template (idx : Nat) (escT : List Char) (flag : Bool)
    (eo en es : List Char) : escT <:+: captionTemplate idx escT flag eo en es := by
  rw [captionTemplate]
  have hmid : escT <:+: "*🏷️ المنتج ".toList ++ (Nat.repr idx).toList ++
      ": ".toList ++ escT ++ "*\n\n".toList :=
    ⟨"*🏷️ المنتج ".toList ++ (Nat.repr idx).toList ++ ": ".toList, "*\n\n".toList,
      by simp [List.append_assoc]⟩
  exact hmid.trans (List.prefix_append _ _).isInfix

theorem escTitle_part (p : Product) (idx : Nat) :
    escape_markdown_v2 p.title.toList <:+: _build_caption p idx := by
  simp only [_build_caption]
  exact escTitle_part_template idx _ _ _ _ _

/-! Claim theorems. -/

/-- Claim C1: for every known category label whose category has at least one matching
    product in a well-formed catalog, resolving that label and rendering produces at
    most 3 product cards, taken as the first 3 matching records in catalog source
    order with no sorting, each with a non-empty caption. -/
theorem claim_C1 (ps : List Product) (fs : String → Bool) (key label : String)
    (hmem : (key, label) ∈ CATEGORY_MAP)
    (hne : ps.filter (fun p => p.category = key) ≠ []) :
    (category_handler (.json (.arr (ps.map Product.toJ))) fs (fun _ => true) (fun _ => true)
        label).status = .completed ∧
    cardCaptions (category_handler (.json (.arr (ps.map Product.toJ))) fs (fun _ => true)
        (fun _ => true) label).effects =
      captionsFrom ((ps.filter (fun p => p.category = key)).take 3) 1 ∧
    (cardCaptions (category_handler (.json (.arr (ps.map Product.toJ))) fs (fun _ => true)
        (fun _ => true) label).effects).length ≤ 3 ∧
    (∀ cap ∈ cardCaptions (category_handler (.json (.arr (ps.map Product.toJ))) fs
        (fun _ => true) (fun _ => true) label).effects, cap ≠ []) := by
  simp only [category_handler_typed_ok ps fs hmem hne]
  refine ⟨trivial, ?_, ?_, ?_⟩
  · rw [cardCaptions_wrap, cardCaptions_sendEffects]
  · rw [cardCaptions_wrap, cardCaptions_sendEffects, captionsFrom_length]
    exact List.length_take_le _ _
  · rw [cardCaptions_wrap, cardCaptions_sendEffects]
    exact captionsFrom_ne_nil _ _

/-- Concrete catalog used to witness claim C1: four groceries records, so the cap at
    three product cards is exercised. -/
def c1products : List Product :=
  [⟨1, "Rice", "groceries", 10, 0, "https://a", ""⟩,
   ⟨2, "Tea", "beauty", 5, 0, "https://b", ""⟩,
   ⟨3, "Oil", "groceries", 30, 40, "https://c", ""⟩,
   ⟨4, "Salt", "groceries", 3, 0, "https://d", ""⟩,
   ⟨5, "Soap", "groceries", 7, 0, "https://e", ""⟩]

/-- Witness for claim C1 at a concrete catalog and the groceries label. -/
theorem claim_C1_witness :
    (("groceries", "🛒 مواد غذائية") ∈ CATEGORY_MAP) ∧
    (c1products.filter (fun p => p.category = "groceries") ≠ []) ∧
    (category_handler (.json (.arr (c1products.map Product.toJ))) (fun _ => false)
        (fun _ => true) (fun _ => true) "🛒 مواد غذائية").status = .completed ∧
    cardCaptions (category_handler (.json (.arr (c1products.map Product.toJ)))
        (fun _ => false) (fun _ => true) (fun _ => true) "🛒 مواد غذائية").effects =
      captionsFrom ((c1products.filter (fun p => p.category = "groceries")).take 3) 1 :=
  ⟨by decide, by decide,
    (claim_C1 c1products (fun _ => false) "groceries" "🛒 مواد غذائية"
      (by decide) (by decide)).1,
    (claim_C1 c1products (fun _ => false) "groceries" "🛒 مواد غذائية"
      (by decide) (by decide)).2.1⟩

/-- Claim C9: for every known category label with zero matching products in a
    successfully loaded well-formed catalog, the handler emits exactly the
    empty-category reply, whose keyboard still offers the back button, and never the
    error reply; it completes normally. -/
theorem claim_C9 (ps : List Product) (fs : String → Bool) (richOk plainOk : Nat → Bool)
    (key label : String) (hmem : (key, label) ∈ CATEGORY_MAP)
    (hempty : ps.filter (fun p => p.category = key) = []) :
    category_handler (.json (.arr (ps.map Product.toJ))) fs richOk plainOk label =
      ⟨[.menuMsg emptyCategoryText (.rows [[backToPlatformsLabel]]) true], .completed⟩ ∧
    (.menuMsg genericErrorText .noKb true) ∉
      (category_handler (.json (.arr (ps.map Product.toJ))) fs richOk plainOk label).effects ∧
    (category_handler (.json (.arr (ps.map Product.toJ))) fs richOk plainOk label).status =
      .completed := by
  have h := category_handler_typed_empty ps fs richOk plainOk hmem hempty
  refine ⟨h, ?_, ?_⟩
  · rw [h]
    intro hm
    simp at hm
  · rw [h]

/-- Witness for claim C9: a catalog whose only record is not a grocery. -/
theorem claim_C9_witness :
    (("groceries", "🛒 مواد غذائية") ∈ CATEGORY_MAP) ∧
    ([(⟨1, "Lipstick", "beauty", 9, 0, "https://a", ""⟩ : Product)].filter
      (fun p => p.category = "groceries") = []) ∧
    category_handler (.json (.arr ([(⟨1, "Lipstick", "beauty", 9, 0, "https://a", ""⟩ :
        Product)].map Product.toJ))) (fun _ => false) (fun _ => true) (fun _ => true)
        "🛒 مواد غذائية" =
      ⟨[.menuMsg emptyCategoryText (.rows [[backToPlatformsLabel]]) true], .completed⟩ :=
  ⟨by decide, by decide,
    (claim_C9 [⟨1, "Lipstick", "beauty", 9, 0, "https://a", ""⟩] (fun _ => false)
      (fun _ => true) (fun _ => true) "groceries" "🛒 مواد غذائية"
      (by decide) (by decide)).1⟩

/-- Claim C10: under the category handler precondition that the inbound label is a
    value of the category map, the reverse lookup from label to category key always
    succeeds, so the unknown-category error-reply branch is unreachable. -/
theorem claim_C10 :
    (∀ label, label ∈ categoryLabels →
      ∃ key, reverseLookupCategory label = some key ∧ (key, label) ∈ CATEGORY_MAP) ∧
    (∀ (src : CatalogSource) (fs : String → Bool) (richOk plainOk : Nat → Bool)
      (label : String), label ∈ categoryLabels →
      category_handler src fs richOk plainOk label ≠
        ⟨[.menuMsg unknownCategoryText .noKb false], .completed⟩) :=
  ⟨reverseLookup_total,
   fun src fs richOk plainOk label h =>
    category_handler_not_unknown src fs richOk plainOk label h⟩

/-- Witness for claim C10 at the groceries label and a missing catalog source. -/
theorem claim_C10_witness :
    (∃ key, reverseLookupCategory "🛒 مواد غذائية" = some key ∧
      (key, "🛒 مواد غذائية") ∈ CATEGORY_MAP) ∧
    category_handler .missing (fun _ => false) (fun _ => true) (fun _ => true)
        "🛒 مواد غذائية" ≠
      ⟨[.menuMsg unknownCategoryText .noKb false], .completed⟩ :=
  ⟨claim_C10.1 "🛒 مواد غذائية" (by decide),
   claim_C10.2 .missing (fun _ => false) (fun _ => true) (fun _ => true)
     "🛒 مواد غذائية" (by decide)⟩

theorem escF_of_mem {c : Char} (h : c ∈ reservedChars) : escF c = ['\\', c] := by
  rw [escF, if_pos h]

theorem build_caption_pos (p : Product) (idx : Nat) (h : 0 < p.old_price) :
    _build_caption p idx =
      captionTemplate idx (escape_markdown_v2 p.title.toList) true
        (escape_markdown_v2 ((toString p.old_price ++ " ريال").toList))
        (escape_markdown_v2 ((toString p.new_price ++ " ريال").toList))
        (escape_markdown_v2 ((toString (p.old_price - p.new_price) ++ " ريال").toList)) := by
  simp only [_build_caption, if_pos h, decide_eq_true h]

theorem build_caption_nonpos (p : Product) (idx : Nat) (h : ¬ 0 < p.old_price) :
    _build_caption p idx =
      captionTemplate idx (escape_markdown_v2 p.title.toList) false
        (escape_markdown_v2 ((toString p.old_price ++ " ريال").toList))
        (escape_markdown_v2 ((toString p.new_price ++ " ريال").toList))
        (escape_markdown_v2 ((toString (0 : Int) ++ " ريال").toList)) := by
  simp only [_build_caption, if_neg h, decide_eq_false h]

theorem strike_infix_true (idx : Nat) (escT eo en es : List Char) :
    ("~~".toList ++ eo ++ "~~ ➡️ *".toList) <:+: captionTemplate idx escT true eo en es := by
  rw [captionTemplate]
  refine ⟨("*🏷️ المنتج ".toList ++ (Nat.repr idx).toList ++ ": ".toList ++ escT ++
    "*\n\n".toList) ++ "💵 *السعر:*\n".toList,
    en ++ "*\n".toList ++ "💰 *وفرت: ".toList ++ es ++ "* 🎉".toList, ?_⟩
  have hsplit : "💵 *السعر:*\n~~".toList = "💵 *السعر:*\n".toList ++ "~~".toList := by decide
  rw [if_pos rfl, hsplit]
  simp [List.append_assoc]

theorem savings_suffix_true (idx : Nat) (escT eo en es : List Char) :
    ("💰 *وفرت: ".toList ++ es ++ "* 🎉".toList) <:+: captionTemplate idx escT true eo en es := by
  rw [captionTemplate]
  refine ⟨("*🏷️ المنتج ".toList ++ (Nat.repr idx).toList ++ ": ".toList ++ escT ++
    "*\n\n".toList) ++ ("💵 *السعر:*\n~~".toList ++ eo ++ "~~ ➡️ *".toList ++ en ++
      "*\n".toList), [], ?_⟩
  rw [if_pos rfl]
  simp [List.append_assoc]

/-- Claim C3: the rendered caption carries a savings line and a strike-through
    old-price segment exactly when old_price is positive; the displayed savings value
    is old_price - new_price computed exactly; with no discount the caption is the
    single-price-line form with no strike-through pair and no savings-line marker. -/
theorem claim_C3 (p : Product) (idx : Nat) :
    (0 < p.old_price →
      _build_caption p idx =
        captionTemplate idx (escape_markdown_v2 p.title.toList) true
          (escape_markdown_v2 ((toString p.old_price ++ " ريال").toList))
          (escape_markdown_v2 ((toString p.new_price ++ " ريال").toList))
          (escape_markdown_v2 ((toString (p.old_price - p.new_price) ++ " ريال").toList)) ∧
      ("~~".toList ++ escape_markdown_v2 ((toString p.old_price ++ " ريال").toList) ++
        "~~ ➡️ *".toList) <:+: _build_caption p idx ∧
      ("💰 *وفرت: ".toList ++
        escape_markdown_v2 ((toString (p.old_price - p.new_price) ++ " ريال").toList) ++
        "* 🎉".toList) <:+: _build_caption p idx) ∧
    (¬ 0 < p.old_price →
      _build_caption p idx =
        captionTemplate idx (escape_markdown_v2 p.title.toList) false
          (escape_markdown_v2 ((toString p.old_price ++ " ريال").toList))
          (escape_markdown_v2 ((toString p.new_price ++ " ريال").toList))
          (escape_markdown_v2 ((toString (0 : Int) ++ " ريال").toList)) ∧
      ¬ (['~', '~'] <:+: _build_caption p idx) ∧
      ¬ ("💰 *وفرت: ".toList <:+: _build_caption p idx)) := by
  constructor
  · intro h
    have he := build_caption_pos p idx h
    refine ⟨he, ?_, ?_⟩
    · rw [he]
      exact strike_infix_true idx _ _ _ _
    · rw [he]
      exact savings_suffix_true idx _ _ _ _
  · intro h
    have he := build_caption_nonpos p idx h
    refine ⟨he, ?_, ?_⟩
    · rw [he]
      exact caption_false_no_strike idx p.title.toList _ _ _
    · rw [he]
      exact caption_false_no_savings idx p.title.toList _ _ _

/-- Witness for claim C3 at a discounted record. -/
theorem claim_C3_witness :
    ((0 : Int) < 100) ∧
    ("~~".toList ++ escape_markdown_v2 ((toString (100 : Int) ++ " ريال").toList) ++
      "~~ ➡️ *".toList) <:+: _build_caption ⟨1, "X", "groceries", 60, 100, "https://a", ""⟩ 1 :=
  ⟨by decide,
   (((claim_C3 ⟨1, "X", "groceries", 60, 100, "https://a", ""⟩ 1).1 (by decide)).2).1⟩

set_option maxHeartbeats 1600000 in
/-- Claim C2: for a title containing every reserved character and no escape marker of
    its own, with old price absent, each field is escaped independently before
    composition; the caption contains every reserved character of the title preceded
    by an escape marker, every reserved character of the escaped title is immediately
    preceded by one, and no doubled escape marker occurs anywhere in the caption, so
    structural markup is never escaped and nothing is double-escaped. -/
theorem claim_C2 (title : String) (idx : Nat) (pid np : Int) (cat url img : String)
    (hbs : '\\' ∉ title.toList)
    (hall : ∀ c ∈ reservedChars, c ∈ title.toList) :
    _build_caption ⟨pid, title, cat, np, 0, url, img⟩ idx =
      captionTemplate idx (escape_markdown_v2 title.toList) false
        (escape_markdown_v2 ((toString (0 : Int) ++ " ريال").toList))
        (escape_markdown_v2 ((toString np ++ " ريال").toList))
        (escape_markdown_v2 ((toString (0 : Int) ++ " ريال").toList)) ∧
    (∀ c ∈ reservedChars,
      ['\\', c] <:+: _build_caption ⟨pid, title, cat, np, 0, url, img⟩ idx) ∧
    (∀ l₁ c l₂, escape_markdown_v2 title.toList = l₁ ++ c :: l₂ → c ∈ reservedChars →
      ∃ u, l₁ = u ++ ['\\']) ∧
    ¬ (['\\', '\\'] <:+: _build_caption ⟨pid, title, cat, np, 0, url, img⟩ idx) := by
  have he := build_caption_nonpos ⟨pid, title, cat, np, 0, url, img⟩ idx
    (show ¬ (0 : Int) < 0 by decide)
  refine ⟨he, ?_, ?_, ?_⟩
  · intro c hc
    have h1 : escF c <:+: escape_markdown_v2 title.toList := esc_mem_block (hall c hc)
    rw [escF_of_mem hc] at h1
    exact List.IsInfix.trans h1
      (escTitle_part ⟨pid, title, cat, np, 0, url, img⟩ idx)
  · exact fun l₁ c l₂ hs hc => esc_occ hc title.toList l₁ l₂ hs
  · rw [he]
    exact caption_false_no_double_backslash idx title.toList
      ((toString np ++ " ريال").toList) _ _ hbs (backslash_not_mem_price np)

/-- The title used to witness claim C2: every reserved character once. -/
def allReservedTitle : String := "_*[]()~`>#+-=|\x7b\x7d.!/"

/-- Witness for claim C2 at the all-reserved-characters title. -/
theorem claim_C2_witness :
    ('\\' ∉ allReservedTitle.toList) ∧
    (∀ c ∈ reservedChars, c ∈ allReservedTitle.toList) ∧
    (∀ c ∈ reservedChars, ['\\', c] <:+:
      _build_caption ⟨1, allReservedTitle, "groceries", 5, 0, "https://a", ""⟩ 1) ∧
    ¬ (['\\', '\\'] <:+:
      _build_caption ⟨1, allReservedTitle, "groceries", 5, 0, "https://a", ""⟩ 1) :=
  ⟨by decide, by decide,
   (claim_C2 allReservedTitle 1 1 5 "groceries" "https://a" "" (by decide) (by decide)).2.1,
   (claim_C2 allReservedTitle 1 1 5 "groceries" "https://a" "" (by decide) (by decide)).2.2.2⟩

/-- Concrete catalog for the claim C4 counterexample: three grocery records. -/
def c4products : List Product :=
  [⟨1, "Rice", "groceries", 10, 0, "https://a", ""⟩,
   ⟨2, "Tea", "groceries", 20, 30, "https://b", ""⟩,
   ⟨3, "Oil", "groceries", 30, 0, "https://c", ""⟩]

/-- Counterexample to claim C4: with a catalog holding three grocery records,
    resolving the show-more label produces the Amazon category menu and zero product
    cards, not a re-render of the first three products of any category. -/
theorem claim_C4_counterexample :
    ((c4products.filter (fun p => p.category = "groceries")).length = 3) ∧
    dispatch 10 (.json (.arr (c4products.map Product.toJ))) (fun _ => false)
        (fun _ => true) (fun _ => true) showMoreLabel = some ⟨amazon_effects, .completed⟩ ∧
    (amazon_effects.countP isCardEffect = 0) :=
  ⟨by decide, dispatch_show_more 10 _ _ _ _, by decide⟩

/-- Claim C4 as amended: resolving the show-more label deterministically re-displays
    the Amazon category menu, identical to resolving the Amazon platform label, with
    no product cards and no pagination state; re-selecting a category label routes
    back to the category handler on the same source, which re-renders the same first
    three products. -/
theorem claim_C4_amended (hour : Nat) (src : CatalogSource) (fs : String → Bool)
    (richOk plainOk : Nat → Bool) :
    dispatch hour src fs richOk plainOk showMoreLabel = some ⟨amazon_effects, .completed⟩ ∧
    dispatch hour src fs richOk plainOk showMoreLabel =
      dispatch hour src fs richOk plainOk amazonLabel ∧
    amazon_effects.countP isCardEffect = 0 ∧
    (∀ label, label ∈ categoryLabels →
      dispatch hour src fs richOk plainOk label =
        some (category_handler src fs richOk plainOk label)) := by
  refine ⟨dispatch_show_more hour src fs richOk plainOk, ?_, by decide, ?_⟩
  · rw [dispatch_show_more, dispatch_amazon]
  · exact fun label h => dispatch_category hour src fs richOk plainOk label h

/-- Witness for claim C4 as amended. -/
theorem claim_C4_witness :
    dispatch 0 .missing (fun _ => false) (fun _ => true) (fun _ => true) showMoreLabel =
      some ⟨amazon_effects, .completed⟩ ∧
    ("🛒 مواد غذائية" ∈ categoryLabels) ∧
    dispatch 0 .missing (fun _ => false) (fun _ => true) (fun _ => true) "🛒 مواد غذائية" =
      some (category_handler .missing (fun _ => false) (fun _ => true) (fun _ => true)
        "🛒 مواد غذائية") :=
  ⟨(claim_C4_amended 0 .missing (fun _ => false) (fun _ => true) (fun _ => true)).1,
   by decide,
   (claim_C4_amended 0 .missing (fun _ => false) (fun _ => true) (fun _ => true)).2.2.2
     "🛒 مواد غذائية" (by decide)⟩

/-- Counterexample to claim C5: a catalog that is valid JSON but not a list of
    objects (a list holding the number 1) passes load_products unvalidated, and the
    category handler then crashes with an uncaught AttributeError instead of emitting
    the generic temporary-error reply. -/
theorem claim_C5_counterexample :
    category_handler (.json (.arr [.num 1])) (fun _ => false) (fun _ => true) (fun _ => true)
        "🛒 مواد غذائية" = ⟨[], .crashed .attributeError⟩ := rfl

/-- Claim C5 as amended: a missing source file and an unparsable source are caught
    and answered with the single generic temporary-error reply; but no structural
    validation exists, so a structurally invalid catalog lets an exception escape the
    handler. -/
theorem claim_C5_amended :
    (∀ (fs : String → Bool) (richOk plainOk : Nat → Bool) (label : String),
      category_handler .missing fs richOk plainOk label =
        ⟨[.menuMsg genericErrorText .noKb true], .completed⟩ ∧
      category_handler .badJson fs richOk plainOk label =
        ⟨[.menuMsg genericErrorText .noKb true], .completed⟩) ∧
    (category_handler (.json (.arr [.num 1])) (fun _ => false) (fun _ => true)
        (fun _ => true) "🛒 مواد غذائية").status = .crashed .attributeError :=
  ⟨fun _ _ _ _ => ⟨rfl, rfl⟩, rfl⟩

/-- Concrete catalog for the claim C6 counterexample: two grocery records. -/
def c6products : List Product :=
  [⟨1, "Rice", "groceries", 10, 0, "https://a", ""⟩,
   ⟨2, "Tea", "groceries", 20, 0, "https://b", ""⟩]

/-- Counterexample to claim C6: when both the rich send and the single plain fallback
    fail on the first product, the handler crashes, having attempted one rich and one
    plain send in total (three effects with the loading message); the second product
    is never attempted, so processing does not continue with the next product. -/
theorem claim_C6_counterexample :
    (category_handler (.json (.arr (c6products.map Product.toJ))) (fun _ => false)
        (fun _ => false) (fun _ => false) "🛒 مواد غذائية").status =
      .crashed .deliveryError ∧
    (category_handler (.json (.arr (c6products.map Product.toJ))) (fun _ => false)
        (fun _ => false) (fun _ => false) "🛒 مواد غذائية").effects.countP
      isRichAttempt = 1 ∧
    (category_handler (.json (.arr (c6products.map Product.toJ))) (fun _ => false)
        (fun _ => false) (fun _ => false) "🛒 مواد غذائية").effects.countP
      isPlainAttempt = 1 ∧
    (category_handler (.json (.arr (c6products.map Product.toJ))) (fun _ => false)
        (fun _ => false) (fun _ => false) "🛒 مواد غذائية").effects.length = 3 :=
  ⟨rfl, rfl, rfl, rfl⟩

/-- Claim C6 as amended: a failed rich send triggers exactly one plain fallback
    attempt and no further retries; but when the fallback also fails the exception
    escapes, so the loop drops every remaining product instead of continuing. -/
theorem claim_C6_amended (fs : String → Bool) (plainOk : Bool) (p : Product) (idx : Nat)
    (rest : List JValue) (richOkF plainOkF : Nat → Bool)
    (hr : richOkF idx = false) (hp : plainOkF idx = false) :
    send_product_message fs false plainOk p.toJ idx =
      (if plainOk then
        ([.richSend (photoFlag fs p) (_build_caption p idx) (.str p.detail_url) false,
          .plainSend (plain_caption (_build_caption p idx)) (.str p.detail_url) true], none)
      else
        ([.richSend (photoFlag fs p) (_build_caption p idx) (.str p.detail_url) false,
          .plainSend (plain_caption (_build_caption p idx)) (.str p.detail_url) false],
          some .deliveryError)) ∧
    (send_product_message fs false plainOk p.toJ idx).1.countP isPlainAttempt = 1 ∧
    sendLoop fs richOkF plainOkF (p.toJ :: rest) idx =
      ([.richSend (photoFlag fs p) (_build_caption p idx) (.str p.detail_url) false,
        .plainSend (plain_caption (_build_caption p idx)) (.str p.detail_url) false],
        some .deliveryError) := by
  have hs := send_toJ fs false plainOk p idx
  simp only [Bool.false_eq_true, if_false] at hs
  refine ⟨hs, ?_, ?_⟩
  · rw [hs]
    cases plainOk <;> rfl
  · simp only [sendLoop, hr, hp, send_toJ]
    simp

/-- Witness for claim C6 as amended: both paths fail on the first record and the
    second record is dropped from the loop result. -/
theorem claim_C6_witness :
    sendLoop (fun _ => false) (fun _ => false) (fun _ => false)
        ((⟨1, "Rice", "groceries", 10, 0, "https://a", ""⟩ : Product).toJ ::
          [(⟨2, "Tea", "groceries", 20, 0, "https://b", ""⟩ : Product).toJ]) 1 =
      ([.richSend false (_build_caption ⟨1, "Rice", "groceries", 10, 0, "https://a", ""⟩ 1)
          (.str "https://a") false,
        .plainSend (plain_caption
            (_build_caption ⟨1, "Rice", "groceries", 10, 0, "https://a", ""⟩ 1))
          (.str "https://a") false], some .deliveryError) :=
  (claim_C6_amended (fun _ => false) false ⟨1, "Rice", "groceries", 10, 0, "https://a", ""⟩ 1
    [(⟨2, "Tea", "groceries", 20, 0, "https://b", ""⟩ : Product).toJ]
    (fun _ => false) (fun _ => false) rfl rfl).2.2

/-- Record for the claim C7 counterexample: a title with a reserved dot. -/
def c7product : Product := ⟨1, "a.b", "groceries", 5, 0, "https://a", ""⟩

/-- Counterexample to claim C7: the plain-text fallback caption of a record whose
    title contains a dot still contains an escape marker, because only escaped
    asterisks are unescaped by the fallback transformation. -/
theorem claim_C7_counterexample : '\\' ∈ plain_caption (_build_caption c7product 1) := by
  decide

/-- Claim C7 as amended: the fallback replaces escaped asterisks, strike-through
    marker pairs and the arrow glyph only; an escape marker sitting before any other
    reserved character, such as a dot of the title, remains in the plain caption. -/
theorem claim_C7_amended (title : String) (idx : Nat) (pid np : Int) (cat url img : String)
    (hdot : '.' ∈ title.toList) :
    '\\' ∈ plain_caption (_build_caption ⟨pid, title, cat, np, 0, url, img⟩ idx) := by
  have h1 : ['\\', '.'] <:+: escape_markdown_v2 title.toList := by
    have h := esc_mem_block hdot
    rwa [escF_of_mem (by decide)] at h
  have h2 := escTitle_part (⟨pid, title, cat, np, 0, url, img⟩ : Product) idx
  obtain ⟨s, u, hsu⟩ := List.IsInfix.trans h1 h2
  have hcap : _build_caption ⟨pid, title, cat, np, 0, url, img⟩ idx =
      s ++ '\\' :: '.' :: u := by
    rw [← hsu]
    simp
  exact plain_caption_keeps_backslash hcap (by decide)

/-- Witness for claim C7 as amended. -/
theorem claim_C7_witness :
    ('.' ∈ ("Mr. Coffee" : String).toList) ∧
    '\\' ∈ plain_caption (_build_caption ⟨2, "Mr. Coffee", "groceries", 9, 0,
      "https://b", ""⟩ 1) :=
  ⟨by decide, claim_C7_amended "Mr. Coffee" 1 2 9 "groceries" "https://b" "" (by decide)⟩

/-- Counterexample to claim C8: an inbound label matching no routing entry is simply
    ignored by the dispatcher; no handler runs and no guidance message is emitted. -/
theorem claim_C8_counterexample :
    dispatch 10 .missing (fun _ => false) (fun _ => true) (fun _ => true) "hello" =
      none := rfl

/-- Claim C8 as amended: a label matching no entry of the routing table produces no
    effect at all; in particular, no guidance message directing the user to the start
    command is emitted, because no catch-all handler is registered. -/
theorem claim_C8_amended (hour : Nat) (src : CatalogSource) (fs : String → Bool)
    (richOk plainOk : Nat → Bool) (label : String) (h : label ∉ knownLabels) :
    dispatch hour src fs richOk plainOk label = none :=
  dispatch_unmatched hour src fs richOk plainOk label h

/-- Witness for claim C8 as amended. -/
theorem claim_C8_witness :
    ("hello" ∉ knownLabels) ∧
    dispatch 0 .badJson (fun _ => false) (fun _ => true) (fun _ => true) "hello" = none :=
  ⟨by decide, claim_C8_amended 0 .badJson (fun _ => false) (fun _ => true) (fun _ => true)
    "hello" (by decide)⟩
